import Mathlib

/-
Verification of the markdown-to-terminal-widget rendering layer
(lookatme/render/tuirenderer.py) against its natural-language design
specification.

The renderer is embedded shallowly: tokens are an inductive tree, the
mutable localized_state dictionary is threaded explicitly, Python
exceptions become an error sum carrying the state at raise time (the
dictionary mutations performed before the exception are visible to the
caller, exactly as in Python, since the code uses no try/finally).
Recursion is bounded by an explicit fuel parameter so that every
definition is structurally recursive and kernel-computable; each mutual
function consumes one unit of fuel per call, and running out of fuel is
a distinguished error that stands for unbounded recursion (the spec,
section 5, treats unbounded recursion as a precondition violation).
-/

namespace Lookatme

/-- Foreground/background style pair, the value stored under the
oldstyle key of localized_state and the shape of plain style entries
(link, quote.style, hrule.style) in the style configuration. -/
structure Style where
  fg : String
  bg : String
deriving DecidableEq

/-- Heading style entry from the style configuration: colors plus the
literal prefix and suffix strings (fields pfx and sfx model the
configuration keys named p-r-e-f-i-x and s-u-f-f-i-x). -/
structure HeadingCfg where
  fg : String
  bg : String
  pfx : String
  sfx : String
deriving DecidableEq

/-- Quote styles used by block_quote: side glyph, corner glyphs, fill style. -/
structure QuoteCfg where
  side : String
  top_corner : String
  bottom_corner : String
  qstyle : Style
deriving DecidableEq

/-- Horizontal rule style used by thematic_break. -/
structure HruleCfg where
  ch : String
  hstyle : Style
deriving DecidableEq

/-- The style configuration consumed through config.get_style().
Category dictionaries that the code reads with .get(key, dict[default])
are modelled as an association list plus the mandatory default entry. -/
structure StyleConfig where
  headings : List (String × HeadingCfg)
  headingsDefault : HeadingCfg
  numbering : List (String × String)
  numberingDefault : String
  bullets : List (String × String)
  bulletsDefault : String
  link : Style
  quote : QuoteCfg
  hrule : HruleCfg

/-- Dictionary read d.get(key, dflt) over an association list. -/
def lookupD (d : List (String × α)) (key : String) (dflt : α) : α :=
  match List.lookup key d with
  | some v => v
  | none => dflt

/-- Token attributes (the attrs dictionary): heading level, ordered flag
and start index for lists, info string for code blocks, url for links.
Keys the parser omits are Option-valued; fields irrelevant to a given
token kind are simply unread. -/
structure Attrs where
  level : Nat
  ordered : Bool
  start : Option Nat
  info : Option String
  url : String

/-- A parsed markdown token: discriminant, literal text, children,
attributes, list bullet character, and the optional reference-link
label read by token.get with key label. -/
inductive Token where
  | mk (type : String) (raw : String) (children : List Token)
      (attrs : Attrs) (bullet : String) (label : Option String)

def Token.type : Token → String
  | .mk ty _ _ _ _ _ => ty

def Token.raw : Token → String
  | .mk _ r _ _ _ _ => r

def Token.children : Token → List Token
  | .mk _ _ cs _ _ _ => cs

def Token.attrs : Token → Attrs
  | .mk _ _ _ a _ _ => a

def Token.bullet : Token → String
  | .mk _ _ _ _ b _ => b

def Token.label : Token → Option String
  | .mk _ _ _ _ _ l => l

/-- Display attribute spec: either a plain urwid AttrSpec built from a
style (spec_from_style) or a LinkIndicatorSpec carrying the visible
text and destination for click dispatch. -/
inductive StyleSpec where
  | spec (fg bg : String)
  | linkIndicator (text url : String) (base : StyleSpec)
deriving DecidableEq

/-- Modelled from the spec: utils.spec_from_style (lookatme/utils.py is
not among the reviewed sources) resolves a style entry to an immutable
display attribute spec. -/
def spec_from_style (s : Style) : StyleSpec :=
  .spec s.fg s.bg

/-- Modelled from the spec: the attribute spec for a heading style entry. -/
def headingSpec (h : HeadingCfg) : StyleSpec :=
  .spec h.fg h.bg

mutual
/-- Display units produced by the renderer: text runs, dividers, piles,
column layouts, padded/framed/attribute-mapped boxes, delegated
syntax-highlighter output, and bare strings (returned by the raw-HTML
and error-placeholder methods). -/
inductive Widget where
  | clickableText (m : Markup)
  | divider
  | hrDivider (ch : String) (top bottom : Nat)
  | text (attr : String) (s : String)
  | pile (ws : List Widget)
  | columns (w : Nat) (marker : Widget) (body : Widget)
  | padding (left : Nat) (w : Widget)
  | lineBox (side tlCorner blCorner : String) (w : Widget)
  | attrMap (sp : StyleSpec) (w : Widget)
  | pygments (code lang : String) (plain : Bool)
  | effectStyled (effect : String) (old : Style) (w : Widget)
  | str (s : String)

/-- Urwid text markup: a string, an attributed run, a markup list, or a
non-text widget flowing through _get_widget_text unchanged. -/
inductive Markup where
  | s (text : String)
  | attr (sp : StyleSpec) (m : Markup)
  | seq (ms : List Markup)
  | ofWidget (w : Widget)
end

/-- Python exceptions the renderer can raise, plus the fuel-exhaustion
marker standing for unbounded recursion. -/
inductive RenderError where
  | noRenderer (name : String)
  | noneResult
  | indexError
  | keyError (k : String)
  | typeError
  | outOfFuel
deriving DecidableEq

/-- The localized_state dictionary: the oldstyle entry pushed by
_add_effect, the headings entry pushed by heading (none models both an
absent key and the empty dictionary the heading handler clears to,
since the only reader looks up the inner style key with a default), and
the list_level counter. -/
structure LState where
  oldstyle : Option Style
  headings : Option HeadingCfg
  list_level : Option Nat
deriving DecidableEq

/-- Fresh localized_state: the constructor makes an empty dictionary. -/
def initState : LState :=
  ⟨none, none, none⟩

/-- Result of one render call: widgets plus the state after, or an
exception paired with the state at raise time (Python mutations made
before the raise stay visible on the instance). -/
abbrev RenderM := Except (RenderError × LState) (List Widget × LState)

/-- An externally registered handler, as passed to register: it receives
the token (the renderer itself is bound by the registering closure) and
the current localized_state, and produces a render result. -/
abbrev Handler := Token → LState → RenderM

/-- The attribute names object.__getattribute__ can find on a TuiRenderer
instance: the methods of the class body plus the instance attributes set
in the constructor. Dunder names inherited from object are omitted; no
token discriminant of interest collides with them. -/
def tuiAttributeNames : List String :=
  ["NAME", "loop", "_log", "localized_state", "_TuiRenderer__methods",
   "register", "_get_method", "render_token", "render_tokens",
   "render_children", "table", "render_table_bak", "render_table_head",
   "render_table_body", "render_table_row", "render_table_cell", "text",
   "_add_effect", "emphasis", "strong", "strikethrough", "link", "image",
   "codespan", "linebreak", "softbreak", "blank_line",
   "render_inline_html", "paragraph", "heading", "thematic_break",
   "block_text", "block_code", "block_quote", "render_block_html",
   "render_block_error", "list"]

/-- Modelled from the spec: the lookatme.utils.int_to_roman collaborator
(lookatme/utils.py is not among the reviewed sources); per sections 4.5
and 8 it produces the correct lowercase Roman numeral, e.g. 4 becomes iv. -/
def int_to_roman (n : Nat) : String :=
  (romanPairs.foldl
    (fun acc p =>
      (acc.1 ++ String.join (List.replicate (acc.2 / p.1) p.2), acc.2 % p.1))
    ("", n)).1
where
  romanPairs : List (Nat × String) :=
    [(1000, "m"), (900, "cm"), (500, "d"), (400, "cd"), (100, "c"),
     (90, "xc"), (50, "l"), (40, "xl"), (10, "x"), (9, "ix"), (5, "v"),
     (4, "iv"), (1, "i")]

/-- Modelled from the spec: utils.styled_text(text, style) (lookatme/utils.py
is not among the reviewed sources) pairs the text with the attribute spec
resolved from the style; used both destructured (spec, text) and directly
as a markup element, which we model as an attributed markup run. -/
def styledM (m : Markup) (sp : StyleSpec) : Markup :=
  .attr sp m

/-- Modelled from the spec: the three-argument utils.styled_text used by
_add_effect merges the named effect onto the previously active style
(section 4.3); the merged run is kept abstract as a dedicated widget. -/
def styled_text_effect (w : Widget) (effect : String) (old : Style) : Widget :=
  .effectStyled effect old w

/-- The module-level _get_widget_text helper: a ClickableText contributes
its text content (with its attributes) to the enclosing markup, any other
widget is passed through unchanged. The attrib/text decomposition that
the urwid toolkit performs on stored markup is modelled as the markup
itself. -/
def getWidgetText (w : Widget) : Markup :=
  match w with
  | .clickableText m => m
  | w => .ofWidget w

/-- Whether a widget is an urwid.Divider instance (the isinstance checks
in block_quote). -/
def isDivider : Widget → Bool
  | .divider => true
  | .hrDivider _ _ _ => true
  | _ => false

/-- The link method (also used verbatim by image): concatenates the raw
text of the children, styles it with the link style; with a
reference-style label it returns the styled text plus the styled label
as a second ClickableText, otherwise it wraps the run in a
LinkIndicatorSpec carrying the destination url. -/
def linkH (cfg : StyleConfig) (t : Token) : List Widget :=
  let rawLinkText := String.join (t.children.map Token.raw)
  let sp := spec_from_style cfg.link
  let toreturn := [Widget.clickableText (.attr sp (.seq [.s rawLinkText]))]
  match t.label with
  | some label =>
      toreturn ++ [Widget.clickableText (.seq [.attr sp (.seq [.s label])])]
  | none =>
      let sp2 := StyleSpec.linkIndicator rawLinkText t.attrs.url sp
      [Widget.clickableText (.attr sp2 (.seq [.s rawLinkText]))]

/-- The marker-text function built by the list method before iterating
items (lines 609 to 627): for ordered lists the numbering scheme for the
current depth (falling back to the default entry) selects numeric,
alphabetic chr(ord(a)+x-1), or Roman rendering, followed by the literal
bullet and a space; a scheme name outside the dispatch dictionary raises
KeyError; unordered lists use the depth bullet glyph plus a space for
every item. -/
def markerFnOf (cfg : StyleConfig) (listLevel : Nat) (t : Token) :
    Except RenderError (Nat → String) :=
  if t.attrs.ordered then
    match lookupD cfg.numbering (toString listLevel) cfg.numberingDefault with
    | "numeric" => .ok (fun x => toString x ++ t.bullet ++ " ")
    | "alpha" =>
        .ok (fun x => String.singleton (Char.ofNat (97 + x - 1)) ++ t.bullet ++ " ")
    | "roman" => .ok (fun x => int_to_roman x ++ t.bullet ++ " ")
    | s => .error (.keyError s)
  else
    .ok (fun _ => lookupD cfg.bullets (toString listLevel) cfg.bulletsDefault ++ " ")

mutual

/-- render_token: resolve the handler for the token discriminant via
_get_method (instance attribute lookup first, then the registered
methods dictionary, else the AttributeError No renderer) and invoke it.
Attributes of the instance that are not unary token handlers raise
TypeError when called with a token; the self-recursive render_token name
recurses until fuel (the recursion limit) runs out. -/
def renderToken (cfg : StyleConfig) (reg : List (String × Handler)) :
    Nat → LState → Token → RenderM
  | 0, st, _ => .error (.outOfFuel, st)
  | fuel+1, st, t =>
    if tuiAttributeNames.contains t.type then
      match t.type with
      | "text" => .ok ([.clickableText (.s t.raw)], st)
      | "emphasis" => addEffect cfg reg fuel st t "italics"
      | "strong" => addEffect cfg reg fuel st t "underline"
      | "strikethrough" => addEffect cfg reg fuel st t "strikethrough"
      | "link" => .ok (linkH cfg t, st)
      | "image" => .ok (linkH cfg t, st)
      | "codespan" => .ok ([.pygments (" " ++ t.raw ++ " ") "text" true], st)
      | "linebreak" => .ok ([.divider], st)
      | "softbreak" => .ok ([.divider], st)
      | "blank_line" => .ok ([.divider, .divider], st)
      | "render_inline_html" => .ok ([.str t.raw], st)
      | "paragraph" => paragraphH cfg reg fuel st t
      | "heading" => headingH cfg reg fuel st t
      | "thematic_break" =>
          .ok ([.pile [.attrMap (spec_from_style cfg.hrule.hstyle)
                  (.hrDivider cfg.hrule.ch 1 1)]], st)
      | "block_text" => blockTextH cfg reg fuel st t
      | "block_code" =>
          .ok ([.divider, .pygments t.raw (t.attrs.info.getD "text") false,
                .divider], st)
      | "block_quote" => blockQuoteH cfg reg fuel st t
      | "render_block_html" => .ok ([.str (t.raw ++ "\n\n")], st)
      | "render_block_error" => .ok ([.str ""], st)
      | "table" => .ok ([.clickableText (.s "rendered table")], st)
      | "list" => listH cfg reg fuel st t
      | "render_children" => renderTokens cfg reg fuel st t.children
      | "render_token" => renderToken cfg reg fuel st t
      | _ => .error (.typeError, st)
    else
      match List.lookup t.type reg with
      | some h => h t st
      | none => .error (.noRenderer t.type, st)

/-- render_tokens: render each token in order, appending the results to
the open container (pile_or_listbox_add, modelled from the spec as
appending the handler result to the container); the first exception
aborts the whole call. The None fail-fast check on line 91 is modelled
as unreachable because every handler in the embedding returns a widget
list. -/
def renderTokens (cfg : StyleConfig) (reg : List (String × Handler)) :
    Nat → LState → List Token → RenderM
  | 0, st, _ => .error (.outOfFuel, st)
  | _+1, st, [] => .ok ([], st)
  | fuel+1, st, t :: ts =>
    match renderToken cfg reg fuel st t with
    | .error e => .error e
    | .ok (ws, st1) =>
      match renderTokens cfg reg fuel st1 ts with
      | .error e => .error e
      | .ok (ws2, st2) => .ok (ws ++ ws2, st2)

/-- _add_effect: fetch the currently active oldstyle (defaulting both
channels to the empty string), store the merged style, render the
children under it, rebuild a single ClickableText from the child text,
then write the fetched oldstyle back (only on the normal path: an
exception from the children propagates with the merged style still
stored). -/
def addEffect (cfg : StyleConfig) (reg : List (String × Handler)) :
    Nat → LState → Token → String → RenderM
  | 0, st, _, _ => .error (.outOfFuel, st)
  | fuel+1, st, t, eff =>
    let oldstyle := st.oldstyle.getD ⟨"", ""⟩
    let oldfg :=
      if oldstyle.fg.length > 0 then oldstyle.fg ++ "," ++ eff
      else "default," ++ eff
    let oldbg := if oldstyle.bg.length = 0 then "default" else oldstyle.bg
    match renderTokens cfg reg fuel
        ⟨some ⟨oldfg, oldbg⟩, st.headings, st.list_level⟩ t.children with
    | .error e => .error e
    | .ok (ws, st2) =>
      let res := Widget.clickableText (.seq (ws.map getWidgetText))
      .ok ([styled_text_effect res eff oldstyle],
           ⟨some oldstyle, st2.headings, st2.list_level⟩)

/-- paragraph: children rendered inline and collapsed into one
ClickableText, wrapped with a leading and a trailing divider. -/
def paragraphH (cfg : StyleConfig) (reg : List (String × Handler)) :
    Nat → LState → Token → RenderM
  | 0, st, _ => .error (.outOfFuel, st)
  | fuel+1, st, t =>
    match renderTokens cfg reg fuel st t.children with
    | .error e => .error e
    | .ok (ws, st1) =>
      .ok ([.divider, .clickableText (.seq (ws.map getWidgetText)), .divider],
           st1)

/-- heading: resolve the level style (falling back to the default entry),
store it under the headings key for the children, then reset that key to
an empty dictionary, wrap the styled children with the configured prefix
and suffix runs, and emit leading/trailing dividers. -/
def headingH (cfg : StyleConfig) (reg : List (String × Handler)) :
    Nat → LState → Token → RenderM
  | 0, st, _ => .error (.outOfFuel, st)
  | fuel+1, st, t =>
    let style := lookupD cfg.headings (toString t.attrs.level) cfg.headingsDefault
    let hs := headingSpec style
    match renderTokens cfg reg fuel
        ⟨st.oldstyle, some style, st.list_level⟩ t.children with
    | .error e => .error e
    | .ok (ws, st1) =>
      let styled := ws.map (fun w => styledM (.ofWidget w) hs)
      .ok ([.divider,
            .clickableText (.seq ([styledM (.s style.pfx) hs] ++ styled ++
              [styledM (.s style.sfx) hs])),
            .divider],
           ⟨st1.oldstyle, none, st1.list_level⟩)

/-- block_text: children followed by a trailing divider. -/
def blockTextH (cfg : StyleConfig) (reg : List (String × Handler)) :
    Nat → LState → Token → RenderM
  | 0, st, _ => .error (.outOfFuel, st)
  | fuel+1, st, t =>
    match renderTokens cfg reg fuel st t.children with
    | .error e => .error e
    | .ok (ws, st1) => .ok (ws ++ [.divider], st1)

/-- block_quote: render the children into a pile, unconditionally index
contents[0] and contents[-1] to trim one leading and one trailing
divider (IndexError when the contents are empty at either check), then
frame the trimmed pile with the configured quote glyphs between two
dividers. -/
def blockQuoteH (cfg : StyleConfig) (reg : List (String × Handler)) :
    Nat → LState → Token → RenderM
  | 0, st, _ => .error (.outOfFuel, st)
  | fuel+1, st, t =>
    match renderTokens cfg reg fuel st t.children with
    | .error e => .error e
    | .ok (res, st1) =>
      match res with
      | [] => .error (.indexError, st1)
      | w :: ws =>
        let c1 := if isDivider w then ws else w :: ws
        match c1.getLast? with
        | none => .error (.indexError, st1)
        | some l =>
          let c2 := if isDivider l then c1.dropLast else c1
          .ok ([.divider,
                .lineBox cfg.quote.side cfg.quote.top_corner
                  cfg.quote.bottom_corner
                  (.attrMap (spec_from_style cfg.quote.qstyle)
                    (.padding 2 (.pile c2))),
                .divider], st1)

/-- list: increment the list_level entry, build the marker function,
render the items, then write back list_level fetched with default 1
minus one (only on the normal path: an exception from the items
propagates with the incremented level still stored). At depth zero the
item rows are wrapped with dividers and indented; at nested depths the
bare pile is returned. -/
def listH (cfg : StyleConfig) (reg : List (String × Handler)) :
    Nat → LState → Token → RenderM
  | 0, st, _ => .error (.outOfFuel, st)
  | fuel+1, st, t =>
    let lvl := st.list_level.getD 0 + 1
    let st1 : LState := ⟨st.oldstyle, st.headings, some lvl⟩
    match markerFnOf cfg lvl t with
    | .error e => .error (e, st1)
    | .ok gmt =>
      match listItems cfg reg fuel gmt (t.attrs.start.getD 1) 2 st1 t.children with
      | .error e => .error e
      | .ok (cols, st2) =>
        let newLvl := st2.list_level.getD 1 - 1
        let st3 : LState := ⟨st2.oldstyle, st2.headings, some newLvl⟩
        if newLvl = 0 then
          .ok ([.divider, .padding 2 (.pile cols), .divider], st3)
        else
          .ok ([.pile cols], st3)

/-- The per-item loop of the list method: compute the marker for the
running start index, grow the running maximum marker width (never below
the initial 2), render the item children into a pile via render_token,
and lay the item out as a two-column row of the current maximum width. -/
def listItems (cfg : StyleConfig) (reg : List (String × Handler)) :
    Nat → (Nat → String) → Nat → Nat → LState → List Token → RenderM
  | 0, _, _, _, st, _ => .error (.outOfFuel, st)
  | _+1, _, _, _, st, [] => .ok ([], st)
  | fuel+1, gmt, start, maxw, st, item :: rest =>
    let mtext := gmt start
    let maxw2 := if mtext.length > maxw then mtext.length else maxw
    match renderTokens cfg reg fuel st item.children with
    | .error e => .error e
    | .ok (itemws, st1) =>
      match listItems cfg reg fuel gmt (start + 1) maxw2 st1 rest with
      | .error e => .error e
      | .ok (cols, st2) =>
        .ok (.columns maxw2 (.text "bold" mtext) (.pile itemws) :: cols, st2)

end

/-- register: bind a handler under the given discriminant name; a later
registration of the same name overwrites the earlier one, which the
first-match association lookup reflects. -/
def register (reg : List (String × Handler)) (name : String) (h : Handler) :
    List (String × Handler) :=
  (name, h) :: reg

/-- The style the next _add_effect call would fetch: the oldstyle entry,
defaulting both channels to the empty string exactly as the .get on
line 196 does. -/
def activeOldstyle (st : LState) : Style :=
  st.oldstyle.getD ⟨"", ""⟩

/-- The list nesting depth the next list call would fetch: the
list_level entry with the .get default 0 of line 603. -/
def activeListLevel (st : LState) : Nat :=
  st.list_level.getD 0

/-- Projects the item rows out of either shape the list handler returns:
the wrapped depth-zero form or the bare nested pile. -/
def listCols : List Widget → List Widget
  | [.divider, .padding _ (.pile cols), .divider] => cols
  | [.pile cols] => cols
  | _ => []

/-- Marker text of a two-column list item row. -/
def colMarker : Widget → Option String
  | .columns _ (.text _ m) _ => some m
  | _ => none

/-- Marker column width of a two-column list item row. -/
def colWidth : Widget → Option Nat
  | .columns w _ _ => some w
  | _ => none

/-- The widgets of a successful render result. -/
def okWidgets : RenderM → List Widget
  | .ok (ws, _) => ws
  | .error _ => []

/-- Whether a render result succeeded. -/
def isOkR : RenderM → Bool
  | .ok _ => true
  | .error _ => false

/-! Concrete style configurations and tokens used by witnesses and
counterexamples. -/

def sampleCfg : StyleConfig :=
  ⟨[], ⟨"", "", "", ""⟩, [], "numeric", [], "*", ⟨"", ""⟩,
   ⟨"|", "+", "+", ⟨"", ""⟩⟩, ⟨"-", ⟨"", ""⟩⟩⟩

def alphaCfg : StyleConfig :=
  ⟨[], ⟨"", "", "", ""⟩, [], "alpha", [], "*", ⟨"", ""⟩,
   ⟨"|", "+", "+", ⟨"", ""⟩⟩, ⟨"-", ⟨"", ""⟩⟩⟩

def romanCfg : StyleConfig :=
  ⟨[], ⟨"", "", "", ""⟩, [], "roman", [], "*", ⟨"", ""⟩,
   ⟨"|", "+", "+", ⟨"", ""⟩⟩, ⟨"-", ⟨"", ""⟩⟩⟩

def noAttrs : Attrs := ⟨0, false, none, none, ""⟩

def footTok : Token := .mk "footnote" "" [] noAttrs "" none

def textTok : Token := .mk "text" "x" [] noAttrs "" none

def emphTok : Token :=
  .mk "emphasis" "" [.mk "text" "a" [] noAttrs "" none] noAttrs "" none

def emphBadTok : Token := .mk "emphasis" "" [footTok] noAttrs "" none

def headTok : Token := .mk "heading" "" [] ⟨2, false, none, none, ""⟩ "" none

def refLinkTok : Token :=
  .mk "link" "" [.mk "text" "click" [] noAttrs "" none] noAttrs "" (some "ref")

def blockHtmlTok : Token := .mk "block_html" "<b>hi</b>" [] noAttrs "" none

def blockErrorTok : Token := .mk "block_error" "boom" [] noAttrs "" none

def namedBlockHtmlTok : Token :=
  .mk "render_block_html" "<b>hi</b>" [] noAttrs "" none

def namedBlockErrorTok : Token :=
  .mk "render_block_error" "boom" [] noAttrs "" none

def emptyQuoteTok : Token := .mk "block_quote" "" [] noAttrs "" none

def divHandler : Handler := fun _ st => .ok ([.divider], st)

def innerListTok : Token :=
  .mk "list" "" [.mk "list_item" "" [] noAttrs "" none] noAttrs "*" none

def nestedListTok : Token :=
  .mk "list" "" [.mk "list_item" "" [innerListTok] noAttrs "" none]
    noAttrs "*" none

def badListTok : Token :=
  .mk "list" "" [.mk "list_item" "" [footTok] noAttrs "" none] noAttrs "*" none

def numListTok : Token :=
  .mk "list" "" [.mk "list_item" "" [] noAttrs "" none]
    ⟨0, true, some 1, none, ""⟩ "." none

def alpha27Tok : Token :=
  .mk "list" "" [.mk "list_item" "" [] noAttrs "" none]
    ⟨0, true, some 27, none, ""⟩ "." none

def romanListTok : Token :=
  .mk "list" "" [.mk "list_item" "" [] noAttrs "" none,
    .mk "list_item" "" [] noAttrs "" none]
    ⟨0, true, some 1, none, ""⟩ "." none

def start9ListTok : Token :=
  .mk "list" "" [.mk "list_item" "" [] noAttrs "" none,
    .mk "list_item" "" [] noAttrs "" none]
    ⟨0, true, some 9, none, ""⟩ "." none

/-- Closed-form rendering of one ordered-list index under a scheme name,
exactly as the list handler builds it: decimal string, character with
code ord(a)+x-1, or lowercase Roman numeral. -/
def schemeFn (scheme : String) (x : Nat) : String :=
  match scheme with
  | "numeric" => toString x
  | "alpha" => String.singleton (Char.ofNat (97 + x - 1))
  | "roman" => int_to_roman x
  | _ => ""

/-- The alphabetic marker as the specification words prescribe it: the
i-th lowercase letter CYCLING from a, so index 27 wraps back to a. -/
def alphaMarkerSpec (i : Nat) : String :=
  String.singleton (Char.ofNat (97 + (i - 1) % 26))

/-! Claim C1. -/

/-- Claim C1: a token whose discriminant resolves to no instance
attribute (built-in handler method) and no registered handler fails
immediately with the AttributeError No renderer naming the
discriminant, both through render_token and through render_tokens
(the walk aborts on the spot instead of skipping the token). -/
theorem c1_unknown_discriminant_fails (cfg : StyleConfig)
    (reg : List (String × Handler)) (fuel : Nat) (st : LState) (t : Token)
    (ts : List Token)
    (hattr : tuiAttributeNames.contains t.type = false)
    (hreg : List.lookup t.type reg = none) :
    renderToken cfg reg (fuel + 1) st t = .error (.noRenderer t.type, st) ∧
    renderTokens cfg reg (fuel + 1 + 1) st (t :: ts) =
      .error (.noRenderer t.type, st) := by
  have h1 : renderToken cfg reg (fuel + 1) st t =
      .error (.noRenderer t.type, st) := by
    simp only [renderToken]
    rw [hattr, if_neg (by decide : ¬(false = true)), hreg]
  exact ⟨h1, by simp [renderTokens, h1]⟩

/-- Witness for C1: the footnote discriminant from the spec scenario,
with an empty registry. -/
theorem c1_witness :
    tuiAttributeNames.contains (Token.type footTok) = false ∧
    renderToken sampleCfg [] 1 initState footTok =
      .error (.noRenderer "footnote", initState) ∧
    renderTokens sampleCfg [] 2 initState [footTok] =
      .error (.noRenderer "footnote", initState) := by
  have h := c1_unknown_discriminant_fails sampleCfg [] 0 initState footTok []
    (by decide) rfl
  exact ⟨by decide, h.1, h.2⟩

/-! Claim C2. -/

/-- On the normal path _add_effect writes the fetched oldstyle back, so
the style the next effect would fetch is unchanged. -/
theorem addEffect_restores (cfg : StyleConfig)
    (reg : List (String × Handler)) (fuel : Nat) (st : LState) (t : Token)
    (eff : String) (ws : List Widget) (stF : LState)
    (h : addEffect cfg reg fuel st t eff = .ok (ws, stF)) :
    activeOldstyle stF = activeOldstyle st := by
  match fuel with
  | 0 => simp [addEffect] at h
  | fuel + 1 =>
    simp only [addEffect] at h
    split at h
    · simp at h
    · injection h with h1
      injection h1 with h2 h3
      subst h3
      simp [activeOldstyle]

/-- Claim C2 (amended): for every emphasis, strong or strikethrough
token, the active style after a SUCCESSFUL render equals the style
active immediately before entering it; when rendering the children
raises, the exception propagates with the merged style still stored
(no try/finally exists), and the whole render call is aborted — see
the counterexample. -/
theorem c2_effect_style_restored_on_success (cfg : StyleConfig)
    (reg : List (String × Handler)) (fuel : Nat) (st : LState) (t : Token)
    (ws : List Widget) (stF : LState)
    (hty : t.type = "emphasis" ∨ t.type = "strong" ∨ t.type = "strikethrough")
    (hok : renderToken cfg reg fuel st t = .ok (ws, stF)) :
    activeOldstyle stF = activeOldstyle st := by
  match fuel with
  | 0 => simp [renderToken] at hok
  | fuel + 1 =>
    obtain ⟨ty, raw, cs, a, b, l⟩ := t
    simp only [Token.type] at hty
    rcases hty with h | h | h <;> subst h <;>
      exact addEffect_restores cfg reg fuel st _ _ ws stF hok

/-- Witness for C2 at a concrete emphasis token with a text child. -/
theorem c2_witness :
    renderToken sampleCfg [] 4 initState emphTok =
      .ok ([.effectStyled "italics" ⟨"", ""⟩ (.clickableText (.seq [.s "a"]))],
        ⟨some ⟨"", ""⟩, none, none⟩) ∧
    activeOldstyle ⟨some ⟨"", ""⟩, none, none⟩ = activeOldstyle initState :=
  ⟨rfl, c2_effect_style_restored_on_success sampleCfg [] 4 initState emphTok
    [.effectStyled "italics" ⟨"", ""⟩ (.clickableText (.seq [.s "a"]))]
    ⟨some ⟨"", ""⟩, none, none⟩ (Or.inl rfl) rfl⟩

/-- Counterexample to C2 as stated: rendering an emphasis token whose
child raises (an unknown footnote discriminant) escapes with
default,italics still stored as the active style — the restoration does
NOT happen on the error path. -/
theorem c2_error_path_not_restored :
    renderToken sampleCfg [] 4 initState emphBadTok =
      .error (.noRenderer "footnote",
        ⟨some ⟨"default,italics", "default"⟩, none, none⟩) ∧
    activeOldstyle ⟨some ⟨"default,italics", "default"⟩, none, none⟩ ≠
      activeOldstyle initState :=
  ⟨rfl, by decide⟩

/-! Claim C3. -/

/-- With no external registrations, every render path preserves the
effective list nesting depth on success: only the list handler touches
list_level, and it writes the pre-call value back before returning.
Stated jointly for all mutually recursive functions and proved by
induction on the fuel. -/
theorem preservesLevel (cfg : StyleConfig) : ∀ fuel : Nat,
    (∀ st t ws stF, renderToken cfg [] fuel st t = .ok (ws, stF) →
      activeListLevel stF = activeListLevel st) ∧
    (∀ st ts ws stF, renderTokens cfg [] fuel st ts = .ok (ws, stF) →
      activeListLevel stF = activeListLevel st) ∧
    (∀ st t eff ws stF, addEffect cfg [] fuel st t eff = .ok (ws, stF) →
      activeListLevel stF = activeListLevel st) ∧
    (∀ st t ws stF, paragraphH cfg [] fuel st t = .ok (ws, stF) →
      activeListLevel stF = activeListLevel st) ∧
    (∀ st t ws stF, headingH cfg [] fuel st t = .ok (ws, stF) →
      activeListLevel stF = activeListLevel st) ∧
    (∀ st t ws stF, blockTextH cfg [] fuel st t = .ok (ws, stF) →
      activeListLevel stF = activeListLevel st) ∧
    (∀ st t ws stF, blockQuoteH cfg [] fuel st t = .ok (ws, stF) →
      activeListLevel stF = activeListLevel st) ∧
    (∀ st t ws stF, listH cfg [] fuel st t = .ok (ws, stF) →
      activeListLevel stF = activeListLevel st) ∧
    (∀ gmt start maxw st items ws stF,
      listItems cfg [] fuel gmt start maxw st items = .ok (ws, stF) →
      activeListLevel stF = activeListLevel st) := by
  intro fuel
  induction fuel with
  | zero =>
    exact ⟨fun st t ws stF h => by simp [renderToken] at h,
      fun st ts ws stF h => by simp [renderTokens] at h,
      fun st t eff ws stF h => by simp [addEffect] at h,
      fun st t ws stF h => by simp [paragraphH] at h,
      fun st t ws stF h => by simp [headingH] at h,
      fun st t ws stF h => by simp [blockTextH] at h,
      fun st t ws stF h => by simp [blockQuoteH] at h,
      fun st t ws stF h => by simp [listH] at h,
      fun gmt start maxw st items ws stF h => by simp [listItems] at h⟩
  | succ fuel ih =>
    obtain ⟨ihT, ihTs, ihE, ihP, ihH, ihBT, ihBQ, ihL, ihLI⟩ := ih
    refine ⟨?_, ?_, ?_, ?_, ?_, ?_, ?_, ?_, ?_⟩
    · intro st t ws stF h
      simp only [renderToken] at h
      split at h
      · split at h <;>
          first
          | exact Except.noConfusion h
          | (simp only [Except.ok.injEq, Prod.mk.injEq] at h; rw [← h.2])
          | exact ihE _ _ _ _ _ h
          | exact ihP _ _ _ _ h
          | exact ihH _ _ _ _ h
          | exact ihBT _ _ _ _ h
          | exact ihBQ _ _ _ _ h
          | exact ihL _ _ _ _ h
          | exact ihTs _ _ _ _ h
          | exact ihT _ _ _ _ h
      · simp [List.lookup] at h
    · intro st ts ws stF h
      match ts with
      | [] =>
        simp only [renderTokens] at h
        simp only [Except.ok.injEq, Prod.mk.injEq] at h
        rw [← h.2]
      | t :: ts =>
        simp only [renderTokens] at h
        split at h
        · exact Except.noConfusion h
        · rename_i ws1 st1 hr
          split at h
          · exact Except.noConfusion h
          · rename_i ws2 st2 hs
            simp only [Except.ok.injEq, Prod.mk.injEq] at h
            rw [← h.2]
            exact (ihTs _ _ _ _ hs).trans (ihT _ _ _ _ hr)
    · intro st t eff ws stF h
      simp only [addEffect] at h
      split at h
      · exact Except.noConfusion h
      · rename_i ws2 st2 hr
        simp only [Except.ok.injEq, Prod.mk.injEq] at h
        rw [← h.2]
        exact (ihTs _ _ _ _ hr).trans rfl
    · intro st t ws stF h
      simp only [paragraphH] at h
      split at h
      · exact Except.noConfusion h
      · rename_i ws1 st1 hr
        simp only [Except.ok.injEq, Prod.mk.injEq] at h
        rw [← h.2]
        exact ihTs _ _ _ _ hr
    · intro st t ws stF h
      simp only [headingH] at h
      split at h
      · exact Except.noConfusion h
      · rename_i ws1 st1 hr
        simp only [Except.ok.injEq, Prod.mk.injEq] at h
        rw [← h.2]
        exact (ihTs _ _ _ _ hr).trans rfl
    · intro st t ws stF h
      simp only [blockTextH] at h
      split at h
      · exact Except.noConfusion h
      · rename_i ws1 st1 hr
        simp only [Except.ok.injEq, Prod.mk.injEq] at h
        rw [← h.2]
        exact ihTs _ _ _ _ hr
    · intro st t ws stF h
      simp only [blockQuoteH] at h
      split at h
      · exact Except.noConfusion h
      · rename_i res st1 hr
        split at h
        · exact Except.noConfusion h
        · split at h
          · exact Except.noConfusion h
          · simp only [Except.ok.injEq, Prod.mk.injEq] at h
            rw [← h.2]
            exact ihTs _ _ _ _ hr
    · intro st t ws stF h
      simp only [listH] at h
      split at h
      · exact Except.noConfusion h
      · rename_i gmt hg
        split at h
        · exact Except.noConfusion h
        · rename_i cols st2 hli
          have h2 : activeListLevel st2 = st.list_level.getD 0 + 1 :=
            (ihLI _ _ _ _ _ _ _ hli).trans rfl
          have h3 : st2.list_level = some (st.list_level.getD 0 + 1) := by
            simp only [activeListLevel] at h2
            cases hc : st2.list_level with
            | none =>
              rw [hc] at h2
              simp only [Option.getD_none] at h2
              omega
            | some v =>
              rw [hc] at h2
              simp only [Option.getD_some] at h2
              rw [h2]
          rw [h3] at h
          split at h <;>
            (simp only [Except.ok.injEq, Prod.mk.injEq] at h
             rw [← h.2]
             simp [activeListLevel])
    · intro gmt start maxw st items ws stF h
      match items with
      | [] =>
        simp only [listItems] at h
        simp only [Except.ok.injEq, Prod.mk.injEq] at h
        rw [← h.2]
      | item :: rest =>
        simp only [listItems] at h
        split at h
        · exact Except.noConfusion h
        · rename_i itemws st1 hr
          split at h
          · exact Except.noConfusion h
          · rename_i cols st2 hrest
            simp only [Except.ok.injEq, Prod.mk.injEq] at h
            rw [← h.2]
            exact (ihLI _ _ _ _ _ _ _ hrest).trans (ihTs _ _ _ _ hr)

/-- Claim C3 (amended): with the built-in handlers (no external
registrations), the nesting depth returns to its pre-list value whenever
a list token renders SUCCESSFULLY, sub-lists included; when rendering
the items raises, the exception propagates with the incremented depth
still stored (no try/finally exists), and the whole render call is
aborted — see the counterexample. -/
theorem c3_list_level_restored_on_success (cfg : StyleConfig) (fuel : Nat)
    (st : LState) (t : Token) (ws : List Widget) (stF : LState)
    (_hty : t.type = "list")
    (hok : renderToken cfg [] fuel st t = .ok (ws, stF)) :
    activeListLevel stF = activeListLevel st :=
  (preservesLevel cfg fuel).1 st t ws stF hok

/-- Witness for C3 at a concrete two-level nested unordered list. -/
theorem c3_witness :
    renderToken sampleCfg [] 9 initState nestedListTok =
      .ok ([.divider,
            .padding 2 (.pile [.columns 2 (.text "bold" "* ")
              (.pile [.pile [.columns 2 (.text "bold" "* ") (.pile [])]])]),
            .divider], ⟨none, none, some 0⟩) ∧
    activeListLevel ⟨none, none, some 0⟩ = activeListLevel initState :=
  ⟨rfl, c3_list_level_restored_on_success sampleCfg 9 initState nestedListTok
    [.divider,
     .padding 2 (.pile [.columns 2 (.text "bold" "* ")
       (.pile [.pile [.columns 2 (.text "bold" "* ") (.pile [])]])]),
     .divider] ⟨none, none, some 0⟩ rfl rfl⟩

/-- Counterexample to C3 as stated: when an item child raises (an
unknown footnote discriminant), the error escapes with the incremented
depth 1 still stored — the decrement does NOT happen on the error
path, leaking depth into any sibling list of the same render call. -/
theorem c3_error_path_leaks_level :
    renderToken sampleCfg [] 5 initState badListTok =
      .error (.noRenderer "footnote", ⟨none, none, some 1⟩) ∧
    activeListLevel ⟨none, none, some 1⟩ ≠ activeListLevel initState :=
  ⟨rfl, by decide⟩

/-! Claims C4 and C5: the marker text and marker-column width of every
rendered list item. -/

/-- The running maximum column width the item loop maintains: the width
used for item i is the maximum of the initial width and the marker
lengths of items 0 through i. -/
def runMax (gmt : Nat → String) : Nat → Nat → Nat → Nat
  | start, maxw, 0 =>
      if (gmt start).length > maxw then (gmt start).length else maxw
  | start, maxw, i + 1 =>
      runMax gmt (start + 1)
        (if (gmt start).length > maxw then (gmt start).length else maxw) i

/-- Joint specification of the item loop: on success it produces one
two-column row per item, whose marker is the marker function applied to
the running start index and whose column width is the running maximum
width up to that item. -/
theorem listItems_markers (cfg : StyleConfig) (reg : List (String × Handler)) :
    ∀ (fuel : Nat) (gmt : Nat → String) (start maxw : Nat) (st : LState)
      (items : List Token) (ws : List Widget) (stF : LState),
      listItems cfg reg fuel gmt start maxw st items = .ok (ws, stF) →
      ws.length = items.length ∧
      ∀ i (hi : i < ws.length),
        colMarker (ws.get ⟨i, hi⟩) = some (gmt (start + i)) ∧
        colWidth (ws.get ⟨i, hi⟩) = some (runMax gmt start maxw i) := by
  intro fuel
  induction fuel with
  | zero =>
    intro gmt start maxw st items ws stF h
    simp [listItems] at h
  | succ fuel ih =>
    intro gmt start maxw st items ws stF h
    match items with
    | [] =>
      simp only [listItems] at h
      simp only [Except.ok.injEq, Prod.mk.injEq] at h
      rw [← h.1]
      exact ⟨rfl, fun i hi => absurd hi (by simp)⟩
    | item :: rest =>
      simp only [listItems] at h
      split at h
      · exact Except.noConfusion h
      · rename_i itemws st1 hr
        split at h
        · exact Except.noConfusion h
        · rename_i cols st2 hrest
          simp only [Except.ok.injEq, Prod.mk.injEq] at h
          obtain ⟨h1, h2⟩ := h
          subst h1
          obtain ⟨ihlen, ihspec⟩ := ih gmt (start + 1) _ st1 rest cols st2 hrest
          refine ⟨by simp [ihlen], ?_⟩
          intro i hi
          match i with
          | 0 =>
            exact ⟨by simp [colMarker], by simp [colWidth, runMax]⟩
          | i + 1 =>
            have hi2 : i < cols.length := by
              simpa using hi
            obtain ⟨hm, hw⟩ := ihspec i hi2
            constructor
            · have harith : start + 1 + i = start + (i + 1) := by omega
              rw [harith] at hm
              simpa using hm
            · rw [runMax]
              simpa using hw

/-- Claim C4 (amended): in a rendered ordered list, the marker text of
the item at zero-based position i (one-based index i+1) is the
scheme-rendered running index (the start attribute, default 1, plus i)
followed by the literal bullet character and one space, the scheme for
the current depth resolving numeric to the decimal string, alphabetic to
the character with code ord(a)+index-1 (the index-th lowercase letter
for indices up to 26, with NO cycling beyond z — see the
counterexample), and Roman to the lowercase Roman numeral. -/
theorem c4_ordered_marker_text (cfg : StyleConfig)
    (reg : List (String × Handler)) (fuel : Nat) (st : LState) (t : Token)
    (ws : List Widget) (stF : LState) (scheme : String)
    (hord : t.attrs.ordered = true)
    (hs : lookupD cfg.numbering (toString (st.list_level.getD 0 + 1))
      cfg.numberingDefault = scheme)
    (h3 : scheme = "numeric" ∨ scheme = "alpha" ∨ scheme = "roman")
    (hok : listH cfg reg (fuel + 1) st t = .ok (ws, stF)) :
    ∀ i (hi : i < (listCols ws).length),
      colMarker ((listCols ws).get ⟨i, hi⟩) =
        some (schemeFn scheme (t.attrs.start.getD 1 + i) ++ t.bullet ++ " ") := by
  have hmf : markerFnOf cfg (st.list_level.getD 0 + 1) t =
      .ok (fun x => schemeFn scheme x ++ t.bullet ++ " ") := by
    rcases h3 with h | h | h <;> subst h <;>
      simp [markerFnOf, hord, hs, schemeFn]
  simp only [listH] at hok
  rw [hmf] at hok
  simp only at hok
  split at hok
  · exact absurd hok (by simp)
  · rename_i cols st2 hli
    have hspec := (listItems_markers cfg reg fuel _ _ _ _ _ _ _ hli).2
    have hlen := (listItems_markers cfg reg fuel _ _ _ _ _ _ _ hli).1
    split at hok <;>
      (simp only [Except.ok.injEq, Prod.mk.injEq] at hok
       rw [← hok.1]
       intro i hi
       simp only [listCols] at hi ⊢
       exact (hspec i hi).1)

/-- Witness for C4 at a one-item numeric ordered list. -/
theorem c4_witness :
    listH sampleCfg [] 5 initState numListTok =
      .ok ([.divider,
            .padding 2 (.pile [.columns 3 (.text "bold" "1. ") (.pile [])]),
            .divider], ⟨none, none, some 0⟩) ∧
    colMarker ((listCols [Widget.divider,
        .padding 2 (.pile [.columns 3 (.text "bold" "1. ") (.pile [])]),
        .divider]).get ⟨0, by simp [listCols]⟩) =
      some (schemeFn "numeric" (Option.getD (Token.attrs numListTok).start 1 + 0) ++
        Token.bullet numListTok ++ " ") :=
  ⟨rfl, c4_ordered_marker_text sampleCfg [] 4 initState numListTok
    [.divider, .padding 2 (.pile [.columns 3 (.text "bold" "1. ") (.pile [])]),
     .divider] ⟨none, none, some 0⟩ "numeric" rfl rfl (Or.inl rfl) rfl
    0 (by simp [listCols])⟩

/-- Counterexample to C4 as stated: with the alphabetic scheme, a list
whose start attribute is 27 renders its first marker from character
code 97+27-1 (the opening brace, written here as an escape), not the
cycled letter the claim prescribes (index 27 cycling from a gives a). -/
theorem c4_alpha_no_cycling :
    renderToken alphaCfg [] 5 initState alpha27Tok =
      .ok ([.divider,
            .padding 2 (.pile [.columns 3 (.text "bold" "\x7b. ") (.pile [])]),
            .divider], ⟨none, none, some 0⟩) ∧
    "\x7b. " ≠ alphaMarkerSpec 27 ++ "." ++ " " ∧
    alphaMarkerSpec 27 = "a" :=
  ⟨rfl, by decide, by decide⟩

/-- Claim C5 (amended): in a rendered list the marker column width of
the item at zero-based position i is the RUNNING maximum of the initial
width 2 and the marker lengths of items 0 through i — not the global
widest-marker width, so items early in the list can get a narrower
column than later items (see the counterexample). -/
theorem c5_marker_column_running_max (cfg : StyleConfig)
    (reg : List (String × Handler)) (fuel : Nat) (st : LState) (t : Token)
    (ws : List Widget) (stF : LState) (gmt : Nat → String)
    (hmf : markerFnOf cfg (st.list_level.getD 0 + 1) t = .ok gmt)
    (hok : listH cfg reg (fuel + 1) st t = .ok (ws, stF)) :
    ∀ i (hi : i < (listCols ws).length),
      colWidth ((listCols ws).get ⟨i, hi⟩) =
        some (runMax gmt (t.attrs.start.getD 1) 2 i) := by
  simp only [listH] at hok
  rw [hmf] at hok
  simp only at hok
  split at hok
  · exact absurd hok (by simp)
  · rename_i cols st2 hli
    have hspec := (listItems_markers cfg reg fuel _ _ _ _ _ _ _ hli).2
    split at hok <;>
      (simp only [Except.ok.injEq, Prod.mk.injEq] at hok
       rw [← hok.1]
       intro i hi
       simp only [listCols] at hi ⊢
       exact (hspec i hi).2)

/-- Witness for C5 at a two-item Roman ordered list: the first column is
3 wide, the second 4 wide, each the running maximum so far. -/
theorem c5_witness :
    listH romanCfg [] 6 initState romanListTok =
      .ok ([.divider,
            .padding 2 (.pile [.columns 3 (.text "bold" "i. ") (.pile []),
              .columns 4 (.text "bold" "ii. ") (.pile [])]),
            .divider], ⟨none, none, some 0⟩) ∧
    colWidth ((listCols [Widget.divider,
        .padding 2 (.pile [.columns 3 (.text "bold" "i. ") (.pile []),
          .columns 4 (.text "bold" "ii. ") (.pile [])]),
        .divider]).get ⟨1, by simp [listCols]⟩) =
      some (runMax (fun x => int_to_roman x ++ "." ++ " ") 1 2 1) :=
  ⟨rfl, c5_marker_column_running_max romanCfg [] 5 initState romanListTok
    [.divider,
     .padding 2 (.pile [.columns 3 (.text "bold" "i. ") (.pile []),
       .columns 4 (.text "bold" "ii. ") (.pile [])]),
     .divider] ⟨none, none, some 0⟩
    (fun x => int_to_roman x ++ "." ++ " ") rfl rfl 1 (by simp [listCols])⟩

/-- Counterexample to C5 as stated: a numeric ordered list starting at 9
with two items gives the first item a 3-wide marker column and the
second a 4-wide one — the widths differ within one level, so the column
is not sized to the widest marker of the level. -/
theorem c5_widths_differ :
    renderToken sampleCfg [] 6 initState start9ListTok =
      .ok ([.divider,
            .padding 2 (.pile [.columns 3 (.text "bold" "9. ") (.pile []),
              .columns 4 (.text "bold" "10. ") (.pile [])]),
            .divider], ⟨none, none, some 0⟩) ∧
    colWidth (Widget.columns 3 (.text "bold" "9. ") (.pile [])) ≠
      colWidth (Widget.columns 4 (.text "bold" "10. ") (.pile [])) :=
  ⟨rfl, by decide⟩

/-! Claim C6. -/

/-- Claim C6 (amended): registering a handler for a discriminant that is
not an instance attribute of the renderer makes dispatch invoke that
handler; for a discriminant that names an existing built-in method the
registration is never consulted, because _get_method resolves the
instance attribute first — see the counterexample. -/
theorem c6_register_new_discriminant (cfg : StyleConfig)
    (reg : List (String × Handler)) (fuel : Nat) (st : LState) (t : Token)
    (h : Handler)
    (hattr : tuiAttributeNames.contains t.type = false)
    (hreg : List.lookup t.type reg = some h) :
    renderToken cfg reg (fuel + 1) st t = h t st := by
  simp only [renderToken]
  rw [hattr, if_neg (by decide : ¬(false = true)), hreg]

/-- Witness for C6: a handler registered for the new footnote
discriminant is invoked by dispatch. -/
theorem c6_witness :
    renderToken sampleCfg (register [] "footnote" divHandler) 1 initState
      footTok = divHandler footTok initState ∧
    renderToken sampleCfg (register [] "footnote" divHandler) 1 initState
      footTok = .ok ([.divider], initState) := by
  have h := c6_register_new_discriminant sampleCfg
    (register [] "footnote" divHandler) 0 initState footTok divHandler
    (by decide) rfl
  exact ⟨h, h.trans rfl⟩

/-- Counterexample to C6 as stated: registering an override for the
built-in text discriminant has no effect on dispatch — the built-in
handler still runs and the registered one is never invoked. -/
theorem c6_builtin_shadows_override :
    renderToken sampleCfg (register [] "text" divHandler) 1 initState textTok =
      .ok ([.clickableText (.s "x")], initState) ∧
    divHandler textTok initState = .ok ([.divider], initState) ∧
    ([Widget.clickableText (.s "x")] : List Widget) ≠ [Widget.divider] :=
  ⟨rfl, rfl, by simp⟩

/-! Claim C7. -/

/-- The heading handler resets the headings entry to an empty dictionary
after rendering its children. -/
theorem headingH_clears (cfg : StyleConfig)
    (reg : List (String × Handler)) (fuel : Nat) (st : LState) (t : Token)
    (ws : List Widget) (stF : LState)
    (h : headingH cfg reg fuel st t = .ok (ws, stF)) :
    stF.headings = none := by
  match fuel with
  | 0 => simp [headingH] at h
  | fuel + 1 =>
    simp only [headingH] at h
    split at h
    · simp at h
    · injection h with h1
      injection h1 with h2 h3
      subst h3
      rfl

/-- Claim C7: after a heading token renders successfully, the headings
style entry of the context is the empty dictionary — fully cleared, not
popped to an earlier value — so sibling tokens see no heading style. -/
theorem c7_heading_style_cleared (cfg : StyleConfig)
    (reg : List (String × Handler)) (fuel : Nat) (st : LState) (t : Token)
    (ws : List Widget) (stF : LState)
    (hty : t.type = "heading")
    (hok : renderToken cfg reg fuel st t = .ok (ws, stF)) :
    stF.headings = none := by
  match fuel with
  | 0 => simp [renderToken] at hok
  | fuel + 1 =>
    obtain ⟨ty, raw, cs, a, b, l⟩ := t
    simp only [Token.type] at hty
    subst hty
    exact headingH_clears cfg reg fuel st _ ws stF hok

/-- Witness for C7 at a concrete childless level-2 heading. -/
theorem c7_witness :
    renderToken sampleCfg [] 3 initState headTok =
      .ok ([.divider,
            .clickableText (.seq [.attr (.spec "" "") (.s ""),
              .attr (.spec "" "") (.s "")]),
            .divider], initState) ∧
    initState.headings = none :=
  ⟨rfl, c7_heading_style_cleared sampleCfg [] 3 initState headTok
    [.divider,
     .clickableText (.seq [.attr (.spec "" "") (.s ""),
       .attr (.spec "" "") (.s "")]),
     .divider] initState rfl rfl⟩

/-! Claim C8. -/

/-- Claim C8 (amended): a link token carrying a reference-style label
renders as the link-styled text run followed by the link-styled label
text as a second ClickableText unit; the label is emitted verbatim, not
enclosed in brackets — see the counterexample. -/
theorem c8_reference_label_second_unit (cfg : StyleConfig) (t : Token)
    (label : String) (hl : t.label = some label) :
    linkH cfg t =
      [.clickableText (.attr (spec_from_style cfg.link)
          (.seq [.s (String.join (t.children.map Token.raw))])),
       .clickableText (.seq [.attr (spec_from_style cfg.link)
          (.seq [.s label])])] := by
  simp [linkH, hl]

/-- Witness for C8 at a concrete reference link. -/
theorem c8_witness :
    refLinkTok.label = some "ref" ∧
    linkH sampleCfg refLinkTok =
      [.clickableText (.attr (.spec "" "") (.seq [.s "click"])),
       .clickableText (.seq [.attr (.spec "" "") (.seq [.s "ref"])])] :=
  ⟨rfl, (c8_reference_label_second_unit sampleCfg refLinkTok "ref" rfl).trans rfl⟩

/-- Counterexample to C8 as stated: the second display unit carries the
label text verbatim (ref), not the bracketed form. -/
theorem c8_label_not_bracketed :
    (linkH sampleCfg refLinkTok)[1]? =
      some (.clickableText (.seq [.attr (.spec "" "") (.seq [.s "ref"])])) ∧
    "ref" ≠ "[" ++ "ref" ++ "]" :=
  ⟨rfl, by decide⟩

/-! Claim C9. -/

/-- Claim C9 (code bug): tokens with the raw-HTML and error-placeholder
parser discriminants block_html and block_error never reach their
handlers — the methods are named render_block_html and
render_block_error, so _get_method raises the No renderer
AttributeError for those discriminants instead of succeeding. The
method bodies (reachable only under the render_-prefixed names) do
produce the pass-through and empty results the spec describes. -/
theorem c9_block_html_dispatch_gap :
    renderToken sampleCfg [] 1 initState blockHtmlTok =
      .error (.noRenderer "block_html", initState) ∧
    renderToken sampleCfg [] 1 initState blockErrorTok =
      .error (.noRenderer "block_error", initState) ∧
    renderToken sampleCfg [] 1 initState namedBlockHtmlTok =
      .ok ([.str "<b>hi</b>\n\n"], initState) ∧
    renderToken sampleCfg [] 1 initState namedBlockErrorTok =
      .ok ([.str ""], initState) :=
  ⟨rfl, rfl, rfl, rfl⟩

/-! Claim C10. -/

/-- Claim C10: a block_quote whose children render to an empty widget
sequence, or to exactly one divider, fails with an out-of-range
IndexError in the boundary-spacer trimming (contents[0] on an empty
pile, or contents[-1] after the single divider was dropped), instead of
returning a framed box. -/
theorem c10_block_quote_trim_index_error (cfg : StyleConfig)
    (reg : List (String × Handler)) (fuel : Nat) (st st1 : LState)
    (t : Token) (w : Widget)
    (hch : renderTokens cfg reg fuel st t.children = .ok ([], st1) ∨
      (renderTokens cfg reg fuel st t.children = .ok ([w], st1) ∧
        isDivider w = true)) :
    blockQuoteH cfg reg (fuel + 1) st t = .error (.indexError, st1) := by
  rcases hch with h | ⟨h, hd⟩
  · simp [blockQuoteH, h]
  · simp [blockQuoteH, h, hd]

/-- Witness for C10 at a block quote with no children. -/
theorem c10_witness :
    renderTokens sampleCfg [] 1 initState (Token.children emptyQuoteTok) =
      .ok ([], initState) ∧
    blockQuoteH sampleCfg [] 2 initState emptyQuoteTok =
      .error (.indexError, initState) :=
  ⟨rfl, c10_block_quote_trim_index_error sampleCfg [] 1 initState initState
    emptyQuoteTok Widget.divider (Or.inl rfl)⟩

end Lookatme
